import Mathlib

/-!
# Verification of the EEG feed-in-tariff normalization and matching engine

Shallow embedding of the core of the `epilot-app-feed-in-tariffs` repository:

* the German free-text parsers `parseCommissioningDate` and `parsePowerRange`
  (scripts/populate-data.ts), including a faithful model of the JavaScript
  regular expressions they use (literal characters, character classes,
  `\s*`, `\d{n}`, and `(\d+(?:,\d+)?)` groups, searched left to right,
  leftmost match first);
* the range predicates `isPowerInRange` / `isDateInRange`
  (scripts/populate-data.ts), including JavaScript truthiness of the
  `range.to && ...` guards (`0` and the empty string are falsy);
* the row-processing loop of `populateData` (scripts/populate-data.ts);
* the query/filter/sort pipeline `lookupTariffs`
  (packages/core/services/tariff-lookup.ts) and the HTTP `handler` of
  packages/functions/api/api-handler.ts, with the external DynamoDB store
  modeled as an `Option (List EegTariffRecord)` argument (`none` models a
  store round trip that fails; the validation guard runs before the store
  is ever consulted, which is expressed by theorems holding for every
  store value including `none`);
* the webhook `handler` / `resumeEpilotExecution` control flow
  (functions/webhook), with the asynchronous patch and fetch calls modeled
  as `Except` values supplied as arguments.

Strings are modeled as `List Char` (JavaScript string comparison on the
zero-padded ISO dates used here is exactly lexicographic comparison of
UTF-16 units, which for these ASCII strings is `Char` code comparison).
JavaScript numbers are modeled as `ℚ`; every numeric literal arising in
the claims (`0.5 * 1000` etc.) is exactly representable in binary64, so
the rational model agrees with the double-precision source on all values
the claims touch.  `Date.getTime()` of an ISO `YYYY-MM-DD` string is
UTC midnight of that civil date; it is modeled by `jsDateMs` via the
standard days-from-civil algorithm (`none` models an invalid date, whose
`getTime()` is `NaN`; a `NaN` comparison is false, which the model
reproduces).
-/

namespace Eeg

/-- Abbreviation turning a string literal into the `List Char` the model works on. -/
def L (s : String) : List Char := s.toList

/-- ASCII decimal digit test (`\d` for the inputs at hand). -/
def isDigitC (c : Char) : Bool := '0' ≤ c && c ≤ '9'

/-- JavaScript `\s` whitespace, restricted to the characters that occur in the data. -/
def isSpaceC (c : Char) : Bool := c = ' ' || c = '\t' || c = '\n' || c = '\r'

/-- One character of `String.prototype.toLowerCase`, for the alphabet the
spreadsheet data uses (ASCII letters and German umlauts; all other
characters are fixed points). -/
def lowerC (c : Char) : Char :=
  match c with
  | 'A' => 'a' | 'B' => 'b' | 'C' => 'c' | 'D' => 'd' | 'E' => 'e' | 'F' => 'f'
  | 'G' => 'g' | 'H' => 'h' | 'I' => 'i' | 'J' => 'j' | 'K' => 'k' | 'L' => 'l'
  | 'M' => 'm' | 'N' => 'n' | 'O' => 'o' | 'P' => 'p' | 'Q' => 'q' | 'R' => 'r'
  | 'S' => 's' | 'T' => 't' | 'U' => 'u' | 'V' => 'v' | 'W' => 'w' | 'X' => 'x'
  | 'Y' => 'y' | 'Z' => 'z' | 'Ä' => 'ä' | 'Ö' => 'ö' | 'Ü' => 'ü'
  | c => c

/-- `String.prototype.toLowerCase`. -/
def toLowerChars (s : List Char) : List Char := s.map lowerC

/-- `String.prototype.trim`: drop whitespace from both ends. -/
def trimChars (s : List Char) : List Char :=
  ((s.dropWhile isSpaceC).reverse.dropWhile isSpaceC).reverse

/-- Whether `pre` is a prefix of `s` (helper for substring search). -/
def startsWithL : List Char → List Char → Bool
  | [], _ => true
  | _ :: _, [] => false
  | p :: ps, c :: cs => p = c && startsWithL ps cs

/-- `String.prototype.includes`: `sub` occurs contiguously inside `s`. -/
def containsSub (s sub : List Char) : Bool :=
  if startsWithL sub s then true
  else
    match s with
    | [] => false
    | _ :: cs => containsSub cs sub

/-- JavaScript `<` on strings: lexicographic comparison of code units. -/
def strLt : List Char → List Char → Bool
  | [], [] => false
  | [], _ :: _ => true
  | _ :: _, [] => false
  | a :: as, b :: bs => if a < b then true else if b < a then false else strLt as bs

/-- The natural number denoted by a list of decimal digits (most significant first). -/
def natOfDigits (ds : List Char) : Nat :=
  ds.foldl (fun acc c => acc * 10 + (c.toNat - '0'.toNat)) 0

/-- `parseFloat` of a captured numeric lexeme after `replace(",", ".")`:
digits, optionally a comma and fraction digits.  Exact rational value. -/
def numOfLexeme (l : List Char) : ℚ :=
  let intPart := l.takeWhile isDigitC
  let rest := l.dropWhile isDigitC
  match rest with
  | ',' :: frac =>
      (natOfDigits intPart : ℚ) + (natOfDigits frac : ℚ) / ((10 : ℚ) ^ frac.length)
  | _ => (natOfDigits intPart : ℚ)

/-! ## A tiny model of the regular expressions used by the parsers

Every regex in the source is a concatenation of literal characters,
a character class, `\s*`, exactly-n-digit groups `(\d{n})`, plain digit
groups `(\d+)`, and decimal-comma number groups `(\d+(?:,\d+)?)`.
On such patterns JavaScript's backtracking search coincides with the
greedy, leftmost-position-first matching implemented here (after every
digit run the pattern continues with a non-digit item, so no backtracking
into a group is ever needed). -/

/-- One item of a source regular expression. -/
inductive PatItem where
  | lit (c : Char)
  | cls (cs : List Char)
  | ws
  | digitsFix (n : Nat)
  | digitsPlus
  | num
deriving DecidableEq

/-- Literal items for a whole string of characters. -/
def lits (s : List Char) : List PatItem := s.map PatItem.lit

/-- Match a pattern at the beginning of `s`; on success return the captured
groups (in order) and the remaining characters. -/
def matchItems : List PatItem → List Char → Option (List (List Char) × List Char)
  | [], s => some ([], s)
  | PatItem.lit c :: p, s =>
      match s with
      | c0 :: s0 => if c0 = c then matchItems p s0 else none
      | [] => none
  | PatItem.cls cs :: p, s =>
      match s with
      | c0 :: s0 => if c0 ∈ cs then matchItems p s0 else none
      | [] => none
  | PatItem.ws :: p, s => matchItems p (s.dropWhile isSpaceC)
  | PatItem.digitsFix n :: p, s =>
      let ds := s.take n
      if ds.length = n && ds.all isDigitC then
        match matchItems p (s.drop n) with
        | some (caps, rest) => some (ds :: caps, rest)
        | none => none
      else none
  | PatItem.digitsPlus :: p, s =>
      let ds := s.takeWhile isDigitC
      if ds.isEmpty then none
      else
        match matchItems p (s.dropWhile isDigitC) with
        | some (caps, rest) => some (ds :: caps, rest)
        | none => none
  | PatItem.num :: p, s =>
      let ds := s.takeWhile isDigitC
      if ds.isEmpty then none
      else
        let s1 := s.dropWhile isDigitC
        match s1 with
        | ',' :: t =>
            let fs := t.takeWhile isDigitC
            if fs.isEmpty then
              match matchItems p s1 with
              | some (caps, rest) => some (ds :: caps, rest)
              | none => none
            else
              match matchItems p (t.dropWhile isDigitC) with
              | some (caps, rest) => some ((ds ++ ',' :: fs) :: caps, rest)
              | none => none
        | _ =>
            match matchItems p s1 with
            | some (caps, rest) => some (ds :: caps, rest)
            | none => none

/-- `String.prototype.match` without anchors: try every start position from
the left, return the captures of the leftmost match. -/
def searchPat (p : List PatItem) : List Char → Option (List (List Char))
  | [] => (matchItems p []).map (fun r => r.1)
  | c :: s =>
      match matchItems p (c :: s) with
      | some (caps, _) => some caps
      | none => searchPat p s

/-- `String.prototype.match` of an `$`-anchored pattern: the match must
consume the string to its end. -/
def searchPatEnd (p : List PatItem) : List Char → Option (List (List Char))
  | [] =>
      match matchItems p [] with
      | some (caps, []) => some caps
      | _ => none
  | c :: s =>
      match matchItems p (c :: s) with
      | some (caps, []) => some caps
      | _ => searchPatEnd p s

/-- First `some` of an ordered list of recognizer results (the parsers try
their patterns in a fixed order and return the first match). -/
def firstSome : List (Option α) → Option α
  | [] => none
  | some a :: _ => some a
  | none :: rest => firstSome rest

/-! ## DateRangeParser (`parseCommissioningDate` of scripts/populate-data.ts) -/

/-- A parsed commissioning-date range; ISO date strings, `to_ = none` means
ongoing (`from`/`to` in the source; renamed because `from` is a Lean keyword). -/
structure DateRange where
  from_ : List Char
  to_ : Option (List Char)
deriving DecidableEq

/-- Proleptic-Gregorian leap-year rule (what `new Date` implements). -/
def isLeapYear (y : Nat) : Bool := y % 4 = 0 && (y % 100 ≠ 0 || y % 400 = 0)

/-- Days in civil month `m` (1–12) of year `y`. -/
def daysInMonth (y : Nat) (m : Nat) : Nat :=
  if m = 2 then (if isLeapYear y then 29 else 28)
  else if m = 4 || m = 6 || m = 9 || m = 11 then 30
  else 31

/-- `new Date(year, month, 0).getDate()` — the day before the first of
0-based month index `month`, i.e. the length of the previous month, with
JavaScript's out-of-range month rollover. -/
def jsLastDay (y m : Nat) : Nat :=
  let t := y * 12 + m - 1
  daysInMonth (t / 12) (t % 12 + 1)

/-- The decimal digit character for `n < 10`. -/
def digitC (n : Nat) : Char := Char.ofNat ('0'.toNat + n)

/-- Decimal digits of a natural number, with structural fuel (the fuel
argument always suffices because `n / 10 < n` for positive `n`). -/
def natDigitsAux : Nat → Nat → List Char
  | 0, _ => []
  | fuel + 1, n =>
      if n < 10 then [digitC n]
      else natDigitsAux fuel (n / 10) ++ [digitC (n % 10)]

/-- Decimal rendering of a natural number (`Number.prototype.toString`). -/
def natToChars (n : Nat) : List Char := natDigitsAux (n + 1) n

/-- `toString().padStart(2, "0")`. -/
def padTwo (n : Nat) : List Char :=
  let s := natToChars n
  if s.length < 2 then '0' :: s else s

/-- `/bis (\d{4})/` -/
def patBisYear : List PatItem := lits (L "bis ") ++ [PatItem.digitsFix 4]

/-- `/inbetriebnahme (\d{4})$/` (end-anchored) -/
def patSingleYear : List PatItem := lits (L "inbetriebnahme ") ++ [PatItem.digitsFix 4]

/-- `/inbetriebnahme (\d{2})-(\d{2})\/(\d{4})/` -/
def patMonthRange : List PatItem :=
  lits (L "inbetriebnahme ") ++
    [PatItem.digitsFix 2, PatItem.lit '-', PatItem.digitsFix 2, PatItem.lit '/',
     PatItem.digitsFix 4]

/-- `/ab (\d{2})\/(\d{4})/` -/
def patAbMonth : List PatItem :=
  lits (L "ab ") ++ [PatItem.digitsFix 2, PatItem.lit '/', PatItem.digitsFix 4]

/-- `/ab (\d{2})\.(\d{2})\.(\d{4})/` -/
def patAbDate : List PatItem :=
  lits (L "ab ") ++
    [PatItem.digitsFix 2, PatItem.lit '.', PatItem.digitsFix 2, PatItem.lit '.',
     PatItem.digitsFix 4]

/-- `/inbetriebnahme (\d{2})\/(\d{4})/` -/
def patSingleMonth : List PatItem :=
  lits (L "inbetriebnahme ") ++
    [PatItem.digitsFix 2, PatItem.lit '/', PatItem.digitsFix 4]

/-- `/modernisierung (\d{4})$/` (end-anchored) -/
def patModYear : List PatItem := lits (L "modernisierung ") ++ [PatItem.digitsFix 4]

/-- `/modernisierung (\d{2})-(\d{2})\/(\d{4})/` -/
def patModRange : List PatItem :=
  lits (L "modernisierung ") ++
    [PatItem.digitsFix 2, PatItem.lit '-', PatItem.digitsFix 2, PatItem.lit '/',
     PatItem.digitsFix 4]

/-- `/inbetriebnahme (\d{2})\.(\d{2})\. bis (\d{2})\.(\d{2})\.(\d{4})/` -/
def patSpecificRange : List PatItem :=
  lits (L "inbetriebnahme ") ++
    [PatItem.digitsFix 2, PatItem.lit '.', PatItem.digitsFix 2, PatItem.lit '.'] ++
    lits (L " bis ") ++
    [PatItem.digitsFix 2, PatItem.lit '.', PatItem.digitsFix 2, PatItem.lit '.',
     PatItem.digitsFix 4]

/-- `/inbetriebnahme (\d{2})\.(\d{2})\. - (\d{2})\.(\d{2})\.(\d{4})/` -/
def patDashRange : List PatItem :=
  lits (L "inbetriebnahme ") ++
    [PatItem.digitsFix 2, PatItem.lit '.', PatItem.digitsFix 2, PatItem.lit '.'] ++
    lits (L " - ") ++
    [PatItem.digitsFix 2, PatItem.lit '.', PatItem.digitsFix 2, PatItem.lit '.',
     PatItem.digitsFix 4]

/-- `/inbetriebnahme (\d{2})\.(\d{2})\.(\d{4}) - (\d{2})\.(\d{2})\.(\d{4})/` -/
def patCrossYear : List PatItem :=
  lits (L "inbetriebnahme ") ++
    [PatItem.digitsFix 2, PatItem.lit '.', PatItem.digitsFix 2, PatItem.lit '.',
     PatItem.digitsFix 4] ++
    lits (L " - ") ++
    [PatItem.digitsFix 2, PatItem.lit '.', PatItem.digitsFix 2, PatItem.lit '.',
     PatItem.digitsFix 4]

/-- "Inbetriebnahme bis 2001": guarded by `str.includes("bis")`, then
`/bis (\d{4})/` → `[1900-01-01, Y-12-31]`. -/
def recBisYear (str : List Char) : Option DateRange :=
  if containsSub str (L "bis") then
    match searchPat patBisYear str with
    | some (y :: _) => some ⟨L "1900-01-01", some (y ++ L "-12-31")⟩
    | _ => none
  else none

/-- "Inbetriebnahme 2005" → the whole year. -/
def recSingleYear (str : List Char) : Option DateRange :=
  match searchPatEnd patSingleYear str with
  | some (y :: _) => some ⟨y ++ L "-01-01", some (y ++ L "-12-31")⟩
  | _ => none

/-- "Inbetriebnahme 01-07/2004" → `[Y-M1-01, Y-M2-31]` (day 31 is written
literally in the source). -/
def recMonthRange (str : List Char) : Option DateRange :=
  match searchPat patMonthRange str with
  | some (m1 :: m2 :: y :: _) =>
      some ⟨y ++ '-' :: m1 ++ L "-01", some (y ++ '-' :: m2 ++ L "-31")⟩
  | _ => none

/-- "Inbetriebnahme ab 01/2017" → open-ended from the first of the month. -/
def recAbMonth (str : List Char) : Option DateRange :=
  match searchPat patAbMonth str with
  | some (m :: y :: _) => some ⟨y ++ '-' :: m ++ L "-01", none⟩
  | _ => none

/-- "Inbetriebnahme ab 25.07.2017" → open-ended from that date. -/
def recAbDate (str : List Char) : Option DateRange :=
  match searchPat patAbDate str with
  | some (d :: m :: y :: _) => some ⟨y ++ '-' :: m ++ '-' :: d, none⟩
  | _ => none

/-- "Inbetriebnahme 04/2020" → the single month, with the real last day
computed via `new Date(year, month, 0).getDate()`. -/
def recSingleMonth (str : List Char) : Option DateRange :=
  match searchPat patSingleMonth str with
  | some (m :: y :: _) =>
      let lastDay := jsLastDay (natOfDigits y) (natOfDigits m)
      some ⟨y ++ '-' :: m ++ L "-01", some (y ++ '-' :: m ++ '-' :: padTwo lastDay)⟩
  | _ => none

/-- "Modernisierung 2020" → the whole year. -/
def recModYear (str : List Char) : Option DateRange :=
  match searchPatEnd patModYear str with
  | some (y :: _) => some ⟨y ++ L "-01-01", some (y ++ L "-12-31")⟩
  | _ => none

/-- "Modernisierung 01-07/2014" → `[Y-M1-01, Y-M2-31]` (literal day 31). -/
def recModRange (str : List Char) : Option DateRange :=
  match searchPat patModRange str with
  | some (m1 :: m2 :: y :: _) =>
      some ⟨y ++ '-' :: m1 ++ L "-01", some (y ++ '-' :: m2 ++ L "-31")⟩
  | _ => none

/-- "Inbetriebnahme 30.07. bis 31.12.2022" → explicit same-year range. -/
def recSpecificRange (str : List Char) : Option DateRange :=
  match searchPat patSpecificRange str with
  | some (d1 :: m1 :: d2 :: m2 :: y :: _) =>
      some ⟨y ++ '-' :: m1 ++ '-' :: d1, some (y ++ '-' :: m2 ++ '-' :: d2)⟩
  | _ => none

/-- "Inbetriebnahme 01.01. - 15.05.2024" → dash-separated same-year range. -/
def recDashRange (str : List Char) : Option DateRange :=
  match searchPat patDashRange str with
  | some (d1 :: m1 :: d2 :: m2 :: y :: _) =>
      some ⟨y ++ '-' :: m1 ++ '-' :: d1, some (y ++ '-' :: m2 ++ '-' :: d2)⟩
  | _ => none

/-- "Inbetriebnahme 25.07.2017 - 31.12.2020" → cross-year range. -/
def recCrossYear (str : List Char) : Option DateRange :=
  match searchPat patCrossYear str with
  | some (d1 :: m1 :: y1 :: d2 :: m2 :: y2 :: _) =>
      some ⟨y1 ++ '-' :: m1 ++ '-' :: d1, some (y2 ++ '-' :: m2 ++ '-' :: d2)⟩
  | _ => none

/-- The ordered recognizer results for a lowercased, trimmed input (the
month-range and same-year-range regexes appear twice in the source with
identical text; the duplicates are kept). -/
def dateRecs (str : List Char) : List (Option DateRange) :=
  [recBisYear str, recSingleYear str, recMonthRange str, recMonthRange str,
   recAbMonth str, recAbDate str, recSingleMonth str, recModYear str,
   recModRange str, recSpecificRange str, recSpecificRange str,
   recDashRange str, recCrossYear str]

/-- `parseCommissioningDate` of scripts/populate-data.ts: lowercase and trim,
then try the ordered pattern recognizers and return the first match;
`null` when the input is falsy or no pattern matches. -/
def parseCommissioningDate (dateStr : List Char) : Option DateRange :=
  if dateStr.isEmpty then none
  else firstSome (dateRecs (trimChars (toLowerChars dateStr)))

/-! ## PowerRangeParser (`parsePowerRange` of scripts/populate-data.ts) -/

/-- A parsed power range in kW; `to_ = none` means no upper limit. -/
structure PowerRange where
  from_ : ℚ
  to_ : Option ℚ
deriving DecidableEq

/-- The character class `[≤<=]` of the source. -/
def lesserChars : List Char := ['≤', '<', '=']

/-- `/(\d+(?:,\d+)?)-(\d+(?:,\d+)?)\s*mw/` -/
def patMwRange : List PatItem :=
  [PatItem.num, PatItem.lit '-', PatItem.num, PatItem.ws, PatItem.lit 'm',
   PatItem.lit 'w']

/-- `/(\d+(?:,\d+)?)\s*-\s*(\d+(?:,\d+)?)\s*mw/` -/
def patMwRangeSpace : List PatItem :=
  [PatItem.num, PatItem.ws, PatItem.lit '-', PatItem.ws, PatItem.num, PatItem.ws,
   PatItem.lit 'm', PatItem.lit 'w']

/-- `/(\d+(?:,\d+)?)\s*-\s*(\d+(?:,\d+)?)\s*kw/` -/
def patKwRange : List PatItem :=
  [PatItem.num, PatItem.ws, PatItem.lit '-', PatItem.ws, PatItem.num, PatItem.ws,
   PatItem.lit 'k', PatItem.lit 'w']

/-- `/(\d+)-(\d+)\s*kw/` -/
def patKwRange2 : List PatItem :=
  [PatItem.digitsPlus, PatItem.lit '-', PatItem.digitsPlus, PatItem.ws,
   PatItem.lit 'k', PatItem.lit 'w']

/-- `/(\d+(?:,\d+)?)\s*kw\s*-\s*(\d+(?:,\d+)?)\s*mw/` -/
def patMixedRange : List PatItem :=
  [PatItem.num, PatItem.ws, PatItem.lit 'k', PatItem.lit 'w', PatItem.ws,
   PatItem.lit '-', PatItem.ws, PatItem.num, PatItem.ws, PatItem.lit 'm',
   PatItem.lit 'w']

/-- `/>\s*(\d+(?:,\d+)?)\s*mw/` -/
def patGreaterMw : List PatItem :=
  [PatItem.lit '>', PatItem.ws, PatItem.num, PatItem.ws, PatItem.lit 'm',
   PatItem.lit 'w']

/-- `/>\s*(\d+(?:,\d+)?)\s*kw/` -/
def patGreaterKw : List PatItem :=
  [PatItem.lit '>', PatItem.ws, PatItem.num, PatItem.ws, PatItem.lit 'k',
   PatItem.lit 'w']

/-- `/[≤<=]\s*(\d+(?:,\d+)?)\s*kw/` -/
def patLesserKw : List PatItem :=
  [PatItem.cls lesserChars, PatItem.ws, PatItem.num, PatItem.ws, PatItem.lit 'k',
   PatItem.lit 'w']

/-- `/[≤<=]\s*(\d+(?:,\d+)?)\s*mw/` -/
def patLesserMw : List PatItem :=
  [PatItem.cls lesserChars, PatItem.ws, PatItem.num, PatItem.ws, PatItem.lit 'm',
   PatItem.lit 'w']

/-- "0-0,5 MW" → MW bounds, both converted to kW. -/
def recMwRange (str : List Char) : Option PowerRange :=
  match searchPat patMwRange str with
  | some (a :: b :: _) => some ⟨numOfLexeme a * 1000, some (numOfLexeme b * 1000)⟩
  | _ => none

/-- "1 - 10 MW" → MW range with spaces, converted to kW. -/
def recMwRangeSpace (str : List Char) : Option PowerRange :=
  match searchPat patMwRangeSpace str with
  | some (a :: b :: _) => some ⟨numOfLexeme a * 1000, some (numOfLexeme b * 1000)⟩
  | _ => none

/-- "10 - 40 kW" → kW range. -/
def recKwRange (str : List Char) : Option PowerRange :=
  match searchPat patKwRange str with
  | some (a :: b :: _) => some ⟨numOfLexeme a, some (numOfLexeme b)⟩
  | _ => none

/-- "0-30 kW" → kW range without spaces around the dash. -/
def recKwRange2 (str : List Char) : Option PowerRange :=
  match searchPat patKwRange2 str with
  | some (a :: b :: _) => some ⟨numOfLexeme a, some (numOfLexeme b)⟩
  | _ => none

/-- "40 kW - 1 MW" → mixed-unit range. -/
def recMixedRange (str : List Char) : Option PowerRange :=
  match searchPat patMixedRange str with
  | some (a :: b :: _) => some ⟨numOfLexeme a, some (numOfLexeme b * 1000)⟩
  | _ => none

/-- "> 1 MW" → open-ended from the MW bound in kW. -/
def recGreaterMw (str : List Char) : Option PowerRange :=
  match searchPat patGreaterMw str with
  | some (a :: _) => some ⟨numOfLexeme a * 1000, none⟩
  | _ => none

/-- "> 100 kW" → open-ended from the kW bound. -/
def recGreaterKw (str : List Char) : Option PowerRange :=
  match searchPat patGreaterKw str with
  | some (a :: _) => some ⟨numOfLexeme a, none⟩
  | _ => none

/-- "≤ 100 kW" / "<= 100 kW" → from 0 up to the kW bound. -/
def recLesserKw (str : List Char) : Option PowerRange :=
  match searchPat patLesserKw str with
  | some (a :: _) => some ⟨0, some (numOfLexeme a)⟩
  | _ => none

/-- "≤ 1 MW" / "<= 1 MW" → from 0 up to the MW bound in kW. -/
def recLesserMw (str : List Char) : Option PowerRange :=
  match searchPat patLesserMw str with
  | some (a :: _) => some ⟨0, some (numOfLexeme a * 1000)⟩
  | _ => none

/-- The ordered recognizer results of `parsePowerRange`. -/
def powerRecs (str : List Char) : List (Option PowerRange) :=
  [recMwRange str, recMwRangeSpace str, recKwRange str, recKwRange2 str,
   recMixedRange str, recGreaterMw str, recGreaterKw str, recLesserKw str,
   recLesserMw str]

/-- `parsePowerRange` of scripts/populate-data.ts: lowercase and trim, try
the ordered patterns, first match wins; bare values (no range or
inequality marker) fall through to `null`. -/
def parsePowerRange (criteriaStr : List Char) : Option PowerRange :=
  if criteriaStr.isEmpty then none
  else firstSome (powerRecs (trimChars (toLowerChars criteriaStr)))

/-! ## RangeMatcher (`isPowerInRange` / `isDateInRange` of scripts/populate-data.ts) -/

/-- `isPowerInRange` of scripts/populate-data.ts.  The source guard is
`if (range.to && powerKW > range.to) return false`: a `to` of `0` is
falsy in JavaScript, so the upper-bound test is skipped for it. -/
def isPowerInRange (powerKW : ℚ) (range : PowerRange) : Bool :=
  if powerKW < range.from_ then false
  else
    match range.to_ with
    | some t => if t ≠ 0 && powerKW > t then false else true
    | none => true

/-- `isDateInRange` of scripts/populate-data.ts.  The source guard is
`if (range.to && isoDate > range.to) return false`: an empty-string `to`
is falsy in JavaScript, so the upper-bound test is skipped for it. -/
def isDateInRange (isoDate : List Char) (range : DateRange) : Bool :=
  if strLt isoDate range.from_ then false
  else
    match range.to_ with
    | some t => if !t.isEmpty && strLt t isoDate then false else true
    | none => true

/-! ## The normalized record and CatalogIngestion
(`populateData` of scripts/populate-data.ts) -/

/-- `EegTariffRecord`, with the shape `populateData` constructs.  Optional
string fields are `Option (List Char)` (`none` = the field is absent /
`undefined`); the four rate fields and the parsed power bounds are
`Option ℚ`. -/
structure EegTariffRecord where
  pk : List Char
  sk : List Char
  bezeichnung : List Char
  energietraeger : List Char
  inbetriebnahme : Option (List Char)
  weitereKriterien : Option (List Char)
  anteilige_zuordnung : Option (List Char)
  einspeiseverguetung : Option ℚ
  anzulegender_wert : Option ℚ
  ausfallverguetung : Option ℚ
  mieterstromzuschlag : Option ℚ
  aufnahmedatum : Option (List Char)
  commissioning_date_from : Option (List Char)
  commissioning_date_to : Option (List Char)
  power_output_from : Option ℚ
  power_output_to : Option ℚ
deriving DecidableEq

/-- One spreadsheet data row as `populateData` sees it after
`sheet_to_json`.  The text cells model `row[i]?.toString()` (`none` when
the cell is absent, so `?.` yields `undefined`); the four rate cells
model the numeric value `parseFloat(row[i])` produces (`none` for `NaN`,
i.e. a cell that is not numeric at all). -/
structure SheetRow where
  c0 : Option (List Char)
  c1 : Option (List Char)
  c2 : Option (List Char)
  c3 : Option (List Char)
  c4 : Option (List Char)
  c5 : Option ℚ
  c6 : Option ℚ
  c7 : Option ℚ
  c8 : Option ℚ
  c9 : Option (List Char)
deriving DecidableEq

/-- `parseFloat(cell) || undefined` of the rate columns: a `NaN` (`none`)
or a `0` is falsy and becomes `undefined`. -/
def parseRate (cell : Option ℚ) : Option ℚ :=
  match cell with
  | none => none
  | some v => if v = 0 then none else some v

/-- JavaScript truthiness of an optional string (`undefined` and `""` are
falsy). -/
def strTruthy : Option (List Char) → Bool
  | none => false
  | some s => !s.isEmpty

/-- `.trim()` applied through `?.`. -/
def trimOpt (c : Option (List Char)) : Option (List Char) := c.map trimChars

/-- `x || undefined` for an optional string. -/
def orUndef (c : Option (List Char)) : Option (List Char) :=
  match c with
  | some s => if s.isEmpty then none else some s
  | none => none

/-- The record `populateData` constructs for a row that passes both skip
guards, invoking the two parsers and storing a failed parse as absent
range fields. -/
def buildRecord (row : SheetRow) : EegTariffRecord :=
  let bezeichnung := trimChars (row.c0.getD [])
  let energietraeger := trimOpt row.c1
  let inbetriebnahme := trimOpt row.c2
  let weitereKriterien := trimOpt row.c3
  let anteilige_zuordnung := trimOpt row.c4
  let dateRange := parseCommissioningDate (inbetriebnahme.getD [])
  let powerRange := parsePowerRange (weitereKriterien.getD [])
  { pk := energietraeger.getD []
    sk := bezeichnung
    bezeichnung := bezeichnung
    energietraeger := energietraeger.getD []
    inbetriebnahme := inbetriebnahme
    weitereKriterien := orUndef weitereKriterien
    anteilige_zuordnung := orUndef anteilige_zuordnung
    einspeiseverguetung := parseRate row.c5
    anzulegender_wert := parseRate row.c6
    ausfallverguetung := parseRate row.c7
    mieterstromzuschlag := parseRate row.c8
    aufnahmedatum := orUndef (trimOpt row.c9)
    commissioning_date_from := dateRange.map (fun r => r.from_)
    commissioning_date_to := dateRange.bind (fun r => r.to_)
    power_output_from := powerRange.map (fun r => r.from_)
    power_output_to := powerRange.bind (fun r => r.to_) }

/-- The body of the row loop of `populateData`: skip the row (`none`) when
the category-code cell is missing/blank or when energy source or
designation is missing (a logged warning, not a failure); otherwise emit
the normalized record. -/
def processRow (row : SheetRow) : Option EegTariffRecord :=
  if !strTruthy (trimOpt row.c0) then none
  else if !strTruthy (trimOpt row.c1) ||
      !strTruthy (some (trimChars (row.c0.getD []))) then none
  else some (buildRecord row)

/-! ## `Date.getTime()` of an ISO date string -/

/-- Days from 1970-01-01 of a civil date (Gregorian, the days-from-civil
algorithm; all inputs of interest have year ≥ 1900 > 0). -/
def daysFromCivil (y m d : Int) : Int :=
  let y1 : Int := if m ≤ 2 then y - 1 else y
  let era : Int := (if 0 ≤ y1 then y1 else y1 - 399) / 400
  let yoe : Int := y1 - era * 400
  let mp : Int := if 2 < m then m - 3 else m + 9
  let doy : Int := (153 * mp + 2) / 5 + d - 1
  let doe : Int := yoe * 365 + yoe / 4 - yoe / 100 + doy
  era * 146097 + doe - 719468

/-- `new Date(s).getTime()` for a `YYYY-MM-DD` string: UTC midnight of the
civil date, in milliseconds since the epoch; `none` models the `NaN` of
an invalid date (wrong shape, month outside 1–12, or day outside the
month). -/
def jsDateMs (s : List Char) : Option Int :=
  match s with
  | [y3, y2, y1, y0, '-', m1, m0, '-', d1, d0] =>
      if [y3, y2, y1, y0, m1, m0, d1, d0].all isDigitC then
        let y := natOfDigits [y3, y2, y1, y0]
        let m := natOfDigits [m1, m0]
        let d := natOfDigits [d1, d0]
        if 1 ≤ m && m ≤ 12 && 1 ≤ d && d ≤ daysInMonth y m then
          some (daysFromCivil y m d * 86400000)
        else none
      else none
  | _ => none

/-- `365 * 24 * 60 * 60 * 1000` — the staleness cutoff of `lookupTariffs`. -/
def oneYearInMs : Int := 365 * 24 * 60 * 60 * 1000

/-! ## TariffCatalog (`lookupTariffs` of packages/core/services/tariff-lookup.ts)

The DynamoDB round trip is modeled by the `storeItems : Option (List
EegTariffRecord)` argument: `some items` is a successful query for the
energy-type partition, `none` a store failure (the `catch` branch). -/

/-- The query parameters of `lookupTariffs`.  `powerOutput` models the
numeric value the source obtains by `parseFloat` from a truthy
`powerOutput` string (`none` = parameter absent or empty). -/
structure TariffLookupParams where
  energyType : List Char
  commissioningDate : Option (List Char)
  powerOutput : Option ℚ
  criteria : Option (List Char)
  bezeichnung : Option (List Char)
deriving DecidableEq

/-- `TariffLookupResult` of tariff-lookup.ts. -/
structure TariffLookupResult where
  found : Bool
  records : List EegTariffRecord
  totalCount : Nat
  error : Option (List Char)
deriving DecidableEq

/-- The commissioning-date filter predicate of `lookupTariffs` (lines
58–78): requires a truthy `commissioning_date_from`, string-compares the
query date against the bounds, and applies the one-year staleness
exclusion only when `commissioning_date_to` is falsy.  A `NaN`
`getTime()` makes the staleness comparison false, keeping the record. -/
def dateFilterKeep (commissioningDate : List Char) (r : EegTariffRecord) : Bool :=
  if !strTruthy r.commissioning_date_from then false
  else
    let f := r.commissioning_date_from.getD []
    if strLt commissioningDate f then false
    else if strTruthy r.commissioning_date_to &&
        strLt (r.commissioning_date_to.getD []) commissioningDate then false
    else if !strTruthy r.commissioning_date_to then
      match jsDateMs f, jsDateMs commissioningDate with
      | some recordMs, some providedMs =>
          if providedMs - recordMs > oneYearInMs then false else true
      | _, _ => true
    else true

/-- The power filter predicate of `lookupTariffs` (lines 94–102): requires
`power_output_from` to be defined (strict `=== undefined` check), then
inclusive bounds, with the upper-bound test skipped for a falsy
(`0`) `power_output_to`. -/
def powerFilterKeep (power : ℚ) (r : EegTariffRecord) : Bool :=
  match r.power_output_from with
  | none => false
  | some f =>
      if power < f then false
      else
        match r.power_output_to with
        | some t => if t ≠ 0 && power > t then false else true
        | none => true

/-- The case-insensitive substring test of the criteria filter
(`record.weitereKriterien?.toLowerCase().includes(...)`; an absent field
gives `undefined`, which is falsy, dropping the record). -/
def criteriaKeep (c : List Char) (r : EegTariffRecord) : Bool :=
  match r.weitereKriterien with
  | some w => containsSub (toLowerChars w) (toLowerChars c)
  | none => false

/-- The sort key of the final sort: `power_output_from ?? Infinity`
(`none` stands for `Infinity`). -/
def powerKey (r : EegTariffRecord) : Option ℚ := r.power_output_from

/-- Strict comparison of sort keys, `Infinity` (= `none`) largest; two
`none`s compare equal (the comparator returns `NaN`, which the sort
treats as `0`). -/
def keyLt : Option ℚ → Option ℚ → Bool
  | some a, some b => decide (a < b)
  | some _, none => true
  | none, _ => false

/-- Stable insertion of a record into an already-sorted list: the new
record goes before the first element whose key is not smaller, so
elements with equal keys keep their original relative order. -/
def insertSorted (x : EegTariffRecord) : List EegTariffRecord → List EegTariffRecord
  | [] => [x]
  | y :: ys =>
      if keyLt (powerKey y) (powerKey x) then y :: insertSorted x ys
      else x :: y :: ys

/-- `records.sort((a, b) => (a.power_output_from ?? Infinity) -
(b.power_output_from ?? Infinity))` — `Array.prototype.sort` is stable
and the comparator is consistent, so it is modeled by a stable insertion
sort on `keyLt`. -/
def sortRecords : List EegTariffRecord → List EegTariffRecord
  | [] => []
  | x :: xs => insertSorted x (sortRecords xs)

/-- The filter pipeline of `lookupTariffs` (date, criteria, bezeichnung,
power — each applied only when the corresponding parameter is truthy). -/
def applyFilters (params : TariffLookupParams) (records : List EegTariffRecord) :
    List EegTariffRecord :=
  let r1 :=
    match params.commissioningDate with
    | some d => if !d.isEmpty then records.filter (dateFilterKeep d) else records
    | none => records
  let r2 :=
    match params.criteria with
    | some c => if !c.isEmpty then r1.filter (criteriaKeep c) else r1
    | none => r1
  let r3 :=
    match params.bezeichnung with
    | some b =>
        if !b.isEmpty then
          r2.filter (fun r => containsSub (toLowerChars r.bezeichnung) (toLowerChars b))
        else r2
    | none => r2
  match params.powerOutput with
  | some p => r3.filter (powerFilterKeep p)
  | none => r3

/-- `lookupTariffs` of packages/core/services/tariff-lookup.ts. -/
def lookupTariffs (params : TariffLookupParams)
    (storeItems : Option (List EegTariffRecord)) : TariffLookupResult :=
  if params.energyType.isEmpty then
    { found := false, records := [], totalCount := 0,
      error := some (L "energyType parameter is required") }
  else
    match storeItems with
    | none =>
        { found := false, records := [], totalCount := 0,
          error := some (L "Internal server error") }
    | some items =>
        let sorted := sortRecords (applyFilters params items)
        { found := decide (0 < sorted.length), records := sorted,
          totalCount := sorted.length, error := none }

/-! ## The HTTP handler (packages/functions/api/api-handler.ts)

Its pipeline repeats the filters of `lookupTariffs` but with no staleness
exclusion in the date filter and no bezeichnung filter. -/

/-- The query-string parameters of the API handler. -/
structure ApiQueryParams where
  energyType : Option (List Char)
  commissioningDate : Option (List Char)
  powerOutput : Option ℚ
  criteria : Option (List Char)
deriving DecidableEq

/-- The JSON body and status code of the API handler's response (`none`
body fields are keys the JSON omits). -/
structure ApiResponse where
  statusCode : Nat
  found : Bool
  records : Option (List EegTariffRecord)
  totalCount : Option Nat
  error : Option (List Char)
deriving DecidableEq

/-- The date filter of api-handler.ts (lines 41–49): plain inclusive range
check on strings, no staleness rule. -/
def apiDateFilterKeep (commissioningDate : List Char) (r : EegTariffRecord) : Bool :=
  if !strTruthy r.commissioning_date_from then false
  else if strLt commissioningDate (r.commissioning_date_from.getD []) then false
  else if strTruthy r.commissioning_date_to &&
      strLt (r.commissioning_date_to.getD []) commissioningDate then false
  else true

/-- The filter pipeline of api-handler.ts. -/
def apiFilters (qp : ApiQueryParams) (records : List EegTariffRecord) :
    List EegTariffRecord :=
  let r1 :=
    match qp.commissioningDate with
    | some d => if !d.isEmpty then records.filter (apiDateFilterKeep d) else records
    | none => records
  let r2 :=
    match qp.criteria with
    | some c => if !c.isEmpty then r1.filter (criteriaKeep c) else r1
    | none => r1
  match qp.powerOutput with
  | some p => r2.filter (powerFilterKeep p)
  | none => r2

/-- The `handler` of packages/functions/api/api-handler.ts. -/
def apiHandler (qp : ApiQueryParams) (storeItems : Option (List EegTariffRecord)) :
    ApiResponse :=
  if !strTruthy qp.energyType then
    { statusCode := 400, found := false, records := none, totalCount := none,
      error := some (L "energyType parameter is required") }
  else
    match storeItems with
    | none =>
        { statusCode := 500, found := false, records := none, totalCount := none,
          error := some (L "Internal server error") }
    | some items =>
        let sorted := sortRecords (apiFilters qp items)
        { statusCode := 200, found := decide (0 < sorted.length),
          records := some sorted, totalCount := some sorted.length, error := none }

/-! ## The webhook flow (webhook handler and `resumeEpilotExecution`)

The asynchronous collaborators are modeled as `Except` arguments: a
`.error` is an `await` that threw. -/

/-- Failures the webhook flow can see. -/
inductive JsError where
  | fetchFailed
  | callbackFailed (status : Nat)
  | upstreamFailed
deriving DecidableEq

/-- The part of a `fetch` response the callback logic inspects. -/
structure FetchResponse where
  ok : Bool
  status : Nat
deriving DecidableEq

/-- `resumeEpilotExecution`: performs the callback POST; a thrown fetch is
re-thrown by the `catch`, and a non-ok response status is turned into a
thrown `Error`. -/
def resumeEpilotExecution (fetchResult : Except JsError FetchResponse) :
    Except JsError Unit :=
  match fetchResult with
  | Except.error e => Except.error e
  | Except.ok response =>
      if response.ok then Except.ok ()
      else Except.error (JsError.callbackFailed response.status)

/-- Status code and `success` flag of the webhook handler's response. -/
structure WebhookResponse where
  statusCode : Nat
  success : Bool
deriving DecidableEq

/-- The webhook `handler` control flow: missing body → 400, missing token
→ 401; then the tariff lookup and the entity patch (folded into one
`Except` argument, as neither alters the callback path), then the resume
callback.  Any thrown error lands in the `catch` and produces a 500
response with `success: false`. -/
def webhookHandler (hasBody hasToken : Bool)
    (lookupAndPatch : Except JsError Unit)
    (callbackFetch : Except JsError FetchResponse) : WebhookResponse :=
  if !hasBody then { statusCode := 400, success := false }
  else if !hasToken then { statusCode := 401, success := false }
  else
    match lookupAndPatch with
    | Except.error _ => { statusCode := 500, success := false }
    | Except.ok _ =>
        match resumeEpilotExecution callbackFetch with
        | Except.error _ => { statusCode := 500, success := false }
        | Except.ok _ => { statusCode := 200, success := true }

/-! ## Derived definitions used by the verification -/

/-- What a successful match of an item forces to occur in the searched
characters: the literal character itself, or some member of a class. -/
def itemNeeds (s : List Char) : PatItem → Prop
  | PatItem.lit c => c ∈ s
  | PatItem.cls cs => ∃ c ∈ cs, c ∈ s
  | _ => True

/-- The range/inequality marker characters a power pattern can require. -/
def markerChars : List Char := ['-', '>', '≤', '<', '=']

/-- The non-strict order the sorted output satisfies: the later record's
key is not smaller than the earlier one's. -/
def recLe (a b : EegTariffRecord) : Prop := keyLt (powerKey b) (powerKey a) = false

/-- A rate field is either absent or a nonzero number. -/
def nonzeroRate (o : Option ℚ) : Prop := o = none ∨ ∃ v, o = some v ∧ v ≠ 0

/-- A concrete record whose parsed date range is open-ended from
2020-01-01 (the shape `populateData` produces for
"Inbetriebnahme ab 01/2020"). -/
def openRangeRecord : EegTariffRecord :=
  ⟨L "Solar", L "K1", L "K1", L "Solar", some (L "Inbetriebnahme ab 01/2020"),
   none, none, none, none, none, none, none, some (L "2020-01-01"), none,
   none, none⟩

/-- A minimal record template for the sort example. -/
def plainRecord : EegTariffRecord :=
  ⟨L "Solar", L "A", L "A", L "Solar", none, none, none, none, none, none,
   none, none, none, none, none, none⟩

/-- Sort example: record with `power_output_from = 100`. -/
def recP100 : EegTariffRecord := { plainRecord with sk := L "p100", power_output_from := some 100 }

/-- Sort example: record with `power_output_from = 0`. -/
def recP0 : EegTariffRecord := { plainRecord with sk := L "p0", power_output_from := some 0 }

/-- Sort example: record with `power_output_from = 40`. -/
def recP40 : EegTariffRecord := { plainRecord with sk := L "p40", power_output_from := some 40 }

/-- Sort example: record with no `power_output_from`. -/
def recPNone : EegTariffRecord := { plainRecord with sk := L "pNone" }

/-- A concrete spreadsheet row whose designation and energy-source cells
are filled but whose date and criteria texts match no parser pattern. -/
def sampleRow : SheetRow :=
  ⟨some (L "EEG 1"), some (L "Solar"), some (L "whenever"), some (L "big plant"),
   none, some 5, none, none, none, none⟩

/-! ## Lemmas about the pattern engine -/

theorem itemNeeds_of_subset {s t : List Char} (hsub : t ⊆ s) :
    ∀ i : PatItem, itemNeeds t i → itemNeeds s i := by
  intro i h
  cases i with
  | lit c => exact hsub h
  | cls cs => rcases h with ⟨c, hc, hmem⟩; exact ⟨c, hc, hsub hmem⟩
  | ws => trivial
  | digitsFix n => trivial
  | digitsPlus => trivial
  | num => trivial

theorem matchItems_needs :
    ∀ (p : List PatItem) (s : List Char) (r : List (List Char) × List Char),
      matchItems p s = some r → ∀ i ∈ p, itemNeeds s i := by
  intro p
  induction p with
  | nil => intro s r _ i hi; cases hi
  | cons hd tl ih =>
    intro s r hm i hi
    rcases List.mem_cons.mp hi with hEq | hTl
    all_goals cases hd with
    | lit c =>
        cases s with
        | nil => simp [matchItems] at hm
        | cons c0 s0 =>
            simp only [matchItems] at hm
            by_cases hc : c0 = c
            · rw [if_pos hc] at hm
              first
              | · subst hEq
                  subst hc
                  exact List.mem_cons_self c0 s0
              | exact itemNeeds_of_subset (List.subset_cons_self c0 s0) i
                  (ih s0 r hm i hTl)
            · rw [if_neg hc] at hm; cases hm
    | cls cs =>
        cases s with
        | nil => simp [matchItems] at hm
        | cons c0 s0 =>
            simp only [matchItems] at hm
            by_cases hc : c0 ∈ cs
            · rw [if_pos hc] at hm
              first
              | · subst hEq
                  exact ⟨c0, hc, List.mem_cons_self c0 s0⟩
              | exact itemNeeds_of_subset (List.subset_cons_self c0 s0) i
                  (ih s0 r hm i hTl)
            · rw [if_neg hc] at hm; cases hm
    | ws =>
        simp only [matchItems] at hm
        first
        | · subst hEq; trivial
        | exact itemNeeds_of_subset (List.dropWhile_sublist _).subset i
            (ih _ r hm i hTl)
    | digitsFix n =>
        simp only [matchItems] at hm
        split at hm
        · cases h2 : matchItems tl (s.drop n) with
          | none => rw [h2] at hm; cases hm
          | some pr =>
              first
              | · subst hEq; trivial
              | exact itemNeeds_of_subset (List.drop_subset n s) i
                  (ih _ pr h2 i hTl)
        · cases hm
    | digitsPlus =>
        simp only [matchItems] at hm
        split at hm
        · cases hm
        · cases h2 : matchItems tl (s.dropWhile isDigitC) with
          | none => rw [h2] at hm; cases hm
          | some pr =>
              first
              | · subst hEq; trivial
              | exact itemNeeds_of_subset (List.dropWhile_sublist _).subset i
                  (ih _ pr h2 i hTl)
    | num =>
        simp only [matchItems] at hm
        split at hm
        · cases hm
        · have hsub1 : s.dropWhile isDigitC ⊆ s := (List.dropWhile_sublist _).subset
          split at hm
          case _ t heq =>
            have hsubt : t ⊆ s := by
              intro a ha
              exact hsub1 (heq ▸ List.mem_cons_of_mem ',' ha)
            split at hm
            · cases h2 : matchItems tl (s.dropWhile isDigitC) with
              | none => rw [h2] at hm; cases hm
              | some pr =>
                  first
                  | · subst hEq; trivial
                  | exact itemNeeds_of_subset hsub1 i (ih _ pr h2 i hTl)
            · cases h2 : matchItems tl (t.dropWhile isDigitC) with
              | none => rw [h2] at hm; cases hm
              | some pr =>
                  first
                  | · subst hEq; trivial
                  | exact itemNeeds_of_subset
                      (fun a ha => hsubt ((List.dropWhile_sublist _).subset ha)) i
                      (ih _ pr h2 i hTl)
          case _ =>
            cases h2 : matchItems tl (s.dropWhile isDigitC) with
            | none => rw [h2] at hm; cases hm
            | some pr =>
                first
                | · subst hEq; trivial
                | exact itemNeeds_of_subset hsub1 i (ih _ pr h2 i hTl)

theorem searchPat_needs :
    ∀ (s : List Char) (p : List PatItem) (caps : List (List Char)),
      searchPat p s = some caps → ∀ i ∈ p, itemNeeds s i := by
  intro s
  induction s with
  | nil =>
      intro p caps h i hi
      simp only [searchPat] at h
      cases h2 : matchItems p [] with
      | none => rw [h2] at h; cases h
      | some pr => exact matchItems_needs p [] pr h2 i hi
  | cons c s0 ih =>
      intro p caps h i hi
      simp only [searchPat] at h
      cases h2 : matchItems p (c :: s0) with
      | none =>
          rw [h2] at h
          exact itemNeeds_of_subset (List.subset_cons_self c s0) i (ih p caps h i hi)
      | some pr => exact matchItems_needs p (c :: s0) pr h2 i hi

/-! ## Lemmas about normalization and `firstSome` -/

theorem firstSome_some_mem {l : List (Option α)} {a : α}
    (h : firstSome l = some a) : some a ∈ l := by
  induction l with
  | nil => cases h
  | cons o rest ih =>
      cases o with
      | some b => cases h; exact List.mem_cons_self _ _
      | none => exact List.mem_cons_of_mem none (ih h)

theorem firstSome_eq_none_iff {l : List (Option α)} :
    firstSome l = none ↔ ∀ o ∈ l, o = none := by
  induction l with
  | nil => simp [firstSome]
  | cons o rest ih =>
      cases o with
      | some b => simp [firstSome]
      | none => simpa [firstSome] using ih

theorem mem_of_mem_trimChars {c : Char} {l : List Char}
    (h : c ∈ trimChars l) : c ∈ l := by
  unfold trimChars at h
  rw [List.mem_reverse] at h
  have h2 : c ∈ (l.dropWhile isSpaceC).reverse :=
    (List.dropWhile_sublist _).subset h
  rw [List.mem_reverse] at h2
  exact (List.dropWhile_sublist _).subset h2

theorem lowerC_marker {m : Char} (hm : m ∈ markerChars) :
    ∀ c : Char, lowerC c = m → c = m := by
  intro c h
  unfold lowerC at h
  split at h
  all_goals first
    | exact h
    | (cases h; exact absurd hm (by decide))

theorem lowerC_w : ∀ c : Char, lowerC c = 'w' → c = 'w' ∨ c = 'W' := by
  intro c h
  unfold lowerC at h
  split at h
  all_goals first
    | exact Or.inl h
    | exact Or.inr rfl
    | exact absurd h (by decide)

/-- A marker character found in the lowercased, trimmed input was present
verbatim in the original input. -/
theorem marker_mem_original {m : Char} (hm : m ∈ markerChars) {s : List Char}
    (h : m ∈ trimChars (toLowerChars s)) : m ∈ s := by
  have h1 : m ∈ toLowerChars s := mem_of_mem_trimChars h
  rcases List.mem_map.mp h1 with ⟨c0, hc0, hl⟩
  rw [← lowerC_marker hm c0 hl]
  exact hc0

/-- A `'w'` found in the lowercased, trimmed input was a `'w'` or a `'W'`
in the original input. -/
theorem w_mem_original {s : List Char}
    (h : 'w' ∈ trimChars (toLowerChars s)) : 'w' ∈ s ∨ 'W' ∈ s := by
  have h1 : 'w' ∈ toLowerChars s := mem_of_mem_trimChars h
  rcases List.mem_map.mp h1 with ⟨c0, hc0, hl⟩
  rcases lowerC_w c0 hl with h2 | h2
  · exact Or.inl (h2 ▸ hc0)
  · exact Or.inr (h2 ▸ hc0)

/-- Every power pattern requires a range or inequality marker and the
letter of a `kW`/`MW` unit, so a successful `parsePowerRange` implies the
input contained a marker character and a `w`/`W`. -/
theorem parsePowerRange_markers {s : List Char} {r : PowerRange}
    (h : parsePowerRange s = some r) :
    ('-' ∈ s ∨ '>' ∈ s ∨ '≤' ∈ s ∨ '<' ∈ s ∨ '=' ∈ s) ∧ ('w' ∈ s ∨ 'W' ∈ s) := by
  unfold parsePowerRange at h
  split at h
  · cases h
  · have hmem := firstSome_some_mem h
    simp only [powerRecs, List.mem_cons, List.not_mem_nil, or_false] at hmem
    set str := trimChars (toLowerChars s) with hstr
    have ofPat : ∀ p : List PatItem, (∃ caps, searchPat p str = some caps) →
        (∀ i ∈ p, itemNeeds str i) := by
      intro p hp
      rcases hp with ⟨caps, hc⟩
      exact searchPat_needs str p caps hc
    have litMem : ∀ (p : List PatItem) (c : Char),
        (∃ caps, searchPat p str = some caps) → PatItem.lit c ∈ p → c ∈ str := by
      intro p c hp hip
      exact ofPat p hp (PatItem.lit c) hip
    have clsMem : ∀ (p : List PatItem),
        (∃ caps, searchPat p str = some caps) → PatItem.cls lesserChars ∈ p →
          ∃ c ∈ lesserChars, c ∈ str := by
      intro p hp hip
      exact ofPat p hp (PatItem.cls lesserChars) hip
    have dashOf : '-' ∈ str → '-' ∈ s ∨ '>' ∈ s ∨ '≤' ∈ s ∨ '<' ∈ s ∨ '=' ∈ s :=
      fun hd => Or.inl (marker_mem_original (by decide) hd)
    have gtOf : '>' ∈ str → '-' ∈ s ∨ '>' ∈ s ∨ '≤' ∈ s ∨ '<' ∈ s ∨ '=' ∈ s :=
      fun hd => Or.inr (Or.inl (marker_mem_original (by decide) hd))
    have lesserOf : (∃ c ∈ lesserChars, c ∈ str) →
        '-' ∈ s ∨ '>' ∈ s ∨ '≤' ∈ s ∨ '<' ∈ s ∨ '=' ∈ s := by
      intro hd
      rcases hd with ⟨c, hc, hcs⟩
      simp only [lesserChars, List.mem_cons, List.not_mem_nil, or_false] at hc
      rcases hc with h3 | h3 | h3
      all_goals subst h3
      · exact Or.inr (Or.inr (Or.inl (marker_mem_original (by decide) hcs)))
      · exact Or.inr (Or.inr (Or.inr (Or.inl (marker_mem_original (by decide) hcs))))
      · exact Or.inr (Or.inr (Or.inr (Or.inr (marker_mem_original (by decide) hcs))))
    have wOf : 'w' ∈ str → 'w' ∈ s ∨ 'W' ∈ s := fun hd => w_mem_original hd
    rcases hmem with h1 | h1 | h1 | h1 | h1 | h1 | h1 | h1 | h1
    all_goals rw [eq_comm] at h1
    · have hp : ∃ caps, searchPat patMwRange str = some caps := by
        cases h2 : searchPat patMwRange str with
        | none => unfold recMwRange at h1; rw [h2] at h1; simp at h1
        | some caps => exact ⟨caps, rfl⟩
      exact ⟨dashOf (litMem _ _ hp (by decide)), wOf (litMem _ _ hp (by decide))⟩
    · have hp : ∃ caps, searchPat patMwRangeSpace str = some caps := by
        cases h2 : searchPat patMwRangeSpace str with
        | none => unfold recMwRangeSpace at h1; rw [h2] at h1; simp at h1
        | some caps => exact ⟨caps, rfl⟩
      exact ⟨dashOf (litMem _ _ hp (by decide)), wOf (litMem _ _ hp (by decide))⟩
    · have hp : ∃ caps, searchPat patKwRange str = some caps := by
        cases h2 : searchPat patKwRange str with
        | none => unfold recKwRange at h1; rw [h2] at h1; simp at h1
        | some caps => exact ⟨caps, rfl⟩
      exact ⟨dashOf (litMem _ _ hp (by decide)), wOf (litMem _ _ hp (by decide))⟩
    · have hp : ∃ caps, searchPat patKwRange2 str = some caps := by
        cases h2 : searchPat patKwRange2 str with
        | none => unfold recKwRange2 at h1; rw [h2] at h1; simp at h1
        | some caps => exact ⟨caps, rfl⟩
      exact ⟨dashOf (litMem _ _ hp (by decide)), wOf (litMem _ _ hp (by decide))⟩
    · have hp : ∃ caps, searchPat patMixedRange str = some caps := by
        cases h2 : searchPat patMixedRange str with
        | none => unfold recMixedRange at h1; rw [h2] at h1; simp at h1
        | some caps => exact ⟨caps, rfl⟩
      exact ⟨dashOf (litMem _ _ hp (by decide)), wOf (litMem _ _ hp (by decide))⟩
    · have hp : ∃ caps, searchPat patGreaterMw str = some caps := by
        cases h2 : searchPat patGreaterMw str with
        | none => unfold recGreaterMw at h1; rw [h2] at h1; simp at h1
        | some caps => exact ⟨caps, rfl⟩
      exact ⟨gtOf (litMem _ _ hp (by decide)), wOf (litMem _ _ hp (by decide))⟩
    · have hp : ∃ caps, searchPat patGreaterKw str = some caps := by
        cases h2 : searchPat patGreaterKw str with
        | none => unfold recGreaterKw at h1; rw [h2] at h1; simp at h1
        | some caps => exact ⟨caps, rfl⟩
      exact ⟨gtOf (litMem _ _ hp (by decide)), wOf (litMem _ _ hp (by decide))⟩
    · have hp : ∃ caps, searchPat patLesserKw str = some caps := by
        cases h2 : searchPat patLesserKw str with
        | none => unfold recLesserKw at h1; rw [h2] at h1; simp at h1
        | some caps => exact ⟨caps, rfl⟩
      exact ⟨lesserOf (clsMem _ hp (by decide)), wOf (litMem _ _ hp (by decide))⟩
    · have hp : ∃ caps, searchPat patLesserMw str = some caps := by
        cases h2 : searchPat patLesserMw str with
        | none => unfold recLesserMw at h1; rw [h2] at h1; simp at h1
        | some caps => exact ⟨caps, rfl⟩
      exact ⟨lesserOf (clsMem _ hp (by decide)), wOf (litMem _ _ hp (by decide))⟩

/-! ## Lemmas about the final sort -/

theorem keyLt_asymm : ∀ {a b : Option ℚ}, keyLt a b = true → keyLt b a = false := by
  intro a b h
  cases a with
  | none => simp [keyLt] at h
  | some av =>
      cases b with
      | none => rfl
      | some bv =>
          simp only [keyLt, decide_eq_true_eq] at h
          simp only [keyLt, decide_eq_false_iff_not]
          exact not_lt.mpr h.le

theorem keyLt_negtrans : ∀ {a b c : Option ℚ},
    keyLt b a = false → keyLt c b = false → keyLt c a = false := by
  intro a b c h1 h2
  cases a with
  | none =>
      cases c with
      | none => rfl
      | some cv =>
          cases b with
          | none => exact absurd h2 (by simp [keyLt])
          | some bv => exact absurd h1 (by simp [keyLt])
  | some av =>
      cases c with
      | none => rfl
      | some cv =>
          cases b with
          | none => exact absurd h2 (by simp [keyLt])
          | some bv =>
              simp only [keyLt, decide_eq_false_iff_not] at h1 h2 ⊢
              exact fun h3 => h2 (lt_of_lt_of_le h3 (not_lt.mp h1))

theorem keyLt_ne : ∀ {a b : Option ℚ}, keyLt a b = true → a ≠ b := by
  intro a b h heq
  subst heq
  cases a with
  | none => simp [keyLt] at h
  | some av => simp [keyLt] at h

theorem mem_insertSorted {x z : EegTariffRecord} :
    ∀ {l : List EegTariffRecord}, z ∈ insertSorted x l ↔ z = x ∨ z ∈ l := by
  intro l
  induction l with
  | nil => simp [insertSorted]
  | cons y ys ih =>
      simp only [insertSorted]
      by_cases hlt : keyLt (powerKey y) (powerKey x) = true
      · rw [if_pos hlt]
        simp only [List.mem_cons, ih]
        tauto
      · rw [if_neg hlt]
        simp only [List.mem_cons]

theorem insertSorted_pairwise {x : EegTariffRecord} :
    ∀ {l : List EegTariffRecord}, List.Pairwise recLe l →
      List.Pairwise recLe (insertSorted x l) := by
  intro l
  induction l with
  | nil => intro _; simp [insertSorted, recLe]
  | cons y ys ih =>
      intro h
      rcases List.pairwise_cons.mp h with ⟨hy, hys⟩
      simp only [insertSorted]
      by_cases hlt : keyLt (powerKey y) (powerKey x) = true
      · rw [if_pos hlt]
        refine List.pairwise_cons.mpr ⟨?_, ih hys⟩
        intro z hz
        rcases mem_insertSorted.mp hz with hzx | hzys
        · subst hzx; exact keyLt_asymm hlt
        · exact hy z hzys
      · rw [if_neg hlt]
        refine List.pairwise_cons.mpr ⟨?_, h⟩
        intro z hz
        rcases List.mem_cons.mp hz with hzy | hzys
        · subst hzy; exact Bool.eq_false_iff.mpr hlt
        · exact keyLt_negtrans (Bool.eq_false_iff.mpr hlt) (hy z hzys)

theorem sortRecords_pairwise :
    ∀ l : List EegTariffRecord, List.Pairwise recLe (sortRecords l) := by
  intro l
  induction l with
  | nil => simp [sortRecords]
  | cons x xs ih => exact insertSorted_pairwise ih

theorem insertSorted_filter_key (x : EegTariffRecord) (k : Option ℚ) :
    ∀ l : List EegTariffRecord,
      (insertSorted x l).filter (fun r => decide (powerKey r = k)) =
        (x :: l).filter (fun r => decide (powerKey r = k)) := by
  intro l
  induction l with
  | nil => rfl
  | cons y ys ih =>
      simp only [insertSorted]
      by_cases hlt : keyLt (powerKey y) (powerKey x) = true
      · rw [if_pos hlt]
        by_cases hx : powerKey x = k
        · by_cases hy : powerKey y = k
          · exact absurd (hy.trans hx.symm) (keyLt_ne hlt)
          · simp [List.filter_cons, hx, hy, ih]
        · by_cases hy : powerKey y = k
          · simp [List.filter_cons, hx, hy, ih]
          · simp [List.filter_cons, hx, hy, ih]
      · rw [if_neg hlt]

theorem sortRecords_filter_key (k : Option ℚ) :
    ∀ l : List EegTariffRecord,
      (sortRecords l).filter (fun r => decide (powerKey r = k)) =
        l.filter (fun r => decide (powerKey r = k)) := by
  intro l
  induction l with
  | nil => rfl
  | cons x xs ih =>
      simp only [sortRecords]
      rw [insertSorted_filter_key]
      by_cases hx : powerKey x = k
      · simp [List.filter_cons, hx, ih]
      · simp [List.filter_cons, hx, ih]

theorem insertSorted_perm (x : EegTariffRecord) :
    ∀ l : List EegTariffRecord, (insertSorted x l).Perm (x :: l) := by
  intro l
  induction l with
  | nil => exact List.Perm.refl _
  | cons y ys ih =>
      simp only [insertSorted]
      by_cases hlt : keyLt (powerKey y) (powerKey x) = true
      · rw [if_pos hlt]
        exact (ih.cons y).trans (List.Perm.swap x y ys)
      · rw [if_neg hlt]

theorem sortRecords_perm :
    ∀ l : List EegTariffRecord, (sortRecords l).Perm l := by
  intro l
  induction l with
  | nil => exact List.Perm.refl _
  | cons x xs ih =>
      simp only [sortRecords]
      exact (insertSorted_perm x (sortRecords xs)).trans (ih.cons x)

/-! ## Evaluation lemmas for numeric lexemes -/

theorem numOfLexeme_d0 : numOfLexeme (L "0") = 0 := by
  show (natOfDigits (L "0") : ℚ) = 0
  rw [show natOfDigits (L "0") = 0 from by decide]
  norm_num

theorem numOfLexeme_d1 : numOfLexeme (L "1") = 1 := by
  show (natOfDigits (L "1") : ℚ) = 1
  rw [show natOfDigits (L "1") = 1 from by decide]
  norm_num

theorem numOfLexeme_d10 : numOfLexeme (L "10") = 10 := by
  show (natOfDigits (L "10") : ℚ) = 10
  rw [show natOfDigits (L "10") = 10 from by decide]
  norm_num

theorem numOfLexeme_d100 : numOfLexeme (L "100") = 100 := by
  show (natOfDigits (L "100") : ℚ) = 100
  rw [show natOfDigits (L "100") = 100 from by decide]
  norm_num

theorem numOfLexeme_half : numOfLexeme (L "0,5") = 1 / 2 := by
  show (natOfDigits (L "0") : ℚ) + (natOfDigits (L "5") : ℚ) / (10 : ℚ) ^ (1 : ℕ) =
    1 / 2
  rw [show natOfDigits (L "0") = 0 from by decide,
    show natOfDigits (L "5") = 5 from by decide]
  norm_num

/-! ## The claims -/

/-- C3 (code bug): the spec requires the month-range forms to emit the
actual last calendar day of the closing month, but the source writes the
literal day `31` (`` `${year}-${toMonth}-31` ``) for both the
"Inbetriebnahme M1-M2/Y" and the "Modernisierung M1-M2/Y" families.
For a closing month with fewer days this produces a non-date: June 2004
has 30 days, yet the parser emits "2004-06-31", which `new Date` (here
`jsDateMs`) rejects as invalid.  Only the single-month form computes the
real month length. -/
theorem c3_month_range_hardcodes_day_31 :
    parseCommissioningDate (L "Inbetriebnahme 01-06/2004") =
      some ⟨L "2004-01-01", some (L "2004-06-31")⟩ ∧
    parseCommissioningDate (L "Modernisierung 01-06/2014") =
      some ⟨L "2014-01-01", some (L "2014-06-31")⟩ ∧
    daysInMonth 2004 6 = 30 ∧
    jsDateMs (L "2004-06-31") = none ∧
    parseCommissioningDate (L "Inbetriebnahme 04/2020") =
      some ⟨L "2020-04-01", some (L "2020-04-30")⟩ := by
  refine ⟨by decide, by decide, by decide, by decide, by decide⟩

/-- C2 (counterexample): the claimed membership rule "`v ≥ r.from` and
(`r.to` absent or `v ≤ r.to`)" fails at the range `[0, 0]` with `v = 1`:
the source guard `range.to && powerKW > range.to` skips the upper-bound
test because the number `0` is falsy in JavaScript, so `isPowerInRange`
returns `true` although `1 ≤ 0` is false. -/
theorem c2_membership_counterexample :
    isPowerInRange 1 ⟨0, some 0⟩ = true ∧ ¬ ((1 : ℚ) ≤ (0 : ℚ)) := by
  exact ⟨by decide, by decide⟩

/-- C2 (amended): inclusive-boundary membership as claimed, restricted to
truthy upper bounds.  `isPowerInRange v r` holds exactly when
`v ≥ r.from` and (`r.to` absent, or `r.to = 0` — a falsy bound is
ignored —, or `v ≤ r.to`); for closed ranges `[a,b]` with `a ≤ b` and
`b ≠ 0` both endpoints are inside and one unit outside each endpoint is
not.  `isDateInRange` satisfies the same rule with the empty string as
the falsy bound, and the power filter inside `lookupTariffs` agrees with
`isPowerInRange` whenever `power_output_from` is present (and drops the
record otherwise). -/
theorem c2_membership_amended :
    (∀ (v : ℚ) (r : PowerRange), isPowerInRange v r = true ↔
        (r.from_ ≤ v ∧ (r.to_ = none ∨ r.to_ = some 0 ∨
          ∃ t, r.to_ = some t ∧ v ≤ t))) ∧
    (∀ a b : ℚ, a ≤ b → b ≠ 0 →
        isPowerInRange a ⟨a, some b⟩ = true ∧
        isPowerInRange b ⟨a, some b⟩ = true ∧
        isPowerInRange (a - 1) ⟨a, some b⟩ = false ∧
        isPowerInRange (b + 1) ⟨a, some b⟩ = false) ∧
    (∀ (s : List Char) (rg : DateRange), isDateInRange s rg = true ↔
        (strLt s rg.from_ = false ∧ (rg.to_ = none ∨ rg.to_ = some [] ∨
          ∃ t, rg.to_ = some t ∧ strLt t s = false))) ∧
    (∀ (v : ℚ) (r : EegTariffRecord), powerFilterKeep v r = true ↔
        ∃ f, r.power_output_from = some f ∧
          isPowerInRange v ⟨f, r.power_output_to⟩ = true) ∧
    (isDateInRange (L "2005-01-01") ⟨L "2005-01-01", some (L "2005-12-31")⟩ = true ∧
     isDateInRange (L "2005-12-31") ⟨L "2005-01-01", some (L "2005-12-31")⟩ = true ∧
     isDateInRange (L "2004-12-31") ⟨L "2005-01-01", some (L "2005-12-31")⟩ = false ∧
     isDateInRange (L "2006-01-01") ⟨L "2005-01-01", some (L "2005-12-31")⟩ = false) := by
  refine ⟨?_, ?_, ?_, ?_, by decide, by decide, by decide, by decide⟩
  · intro v r
    rcases r with ⟨f, ub⟩
    unfold isPowerInRange
    cases ub with
    | none =>
        by_cases h : v < f
        · rw [if_pos h]
          simp [not_le.mpr h]
        · rw [if_neg h]
          simp [not_lt.mp h]
    | some t =>
        by_cases h : v < f
        · rw [if_pos h]
          simp [not_le.mpr h]
        · rw [if_neg h]
          by_cases ht : t = 0
          · subst ht
            simp [not_lt.mp h]
          · by_cases hv : v > t
            · simp [ht, hv, not_lt.mp h, not_le.mpr hv]
            · simp [ht, hv, not_lt.mp h, not_lt.mp hv]
  · intro a b hab hb
    refine ⟨?_, ?_, ?_, ?_⟩
    · unfold isPowerInRange
      rw [if_neg (lt_irrefl a)]
      simp [not_lt.mpr hab]
    · unfold isPowerInRange
      rw [if_neg (not_lt.mpr hab)]
      simp
    · unfold isPowerInRange
      rw [if_pos (by linarith : a - 1 < a)]
    · unfold isPowerInRange
      rw [if_neg (by intro h2; linarith : ¬ b + 1 < a)]
      simp [hb, lt_add_one b]
  · intro s rg
    rcases rg with ⟨f, ub⟩
    unfold isDateInRange
    cases hsf : strLt s f with
    | true => simp [hsf]
    | false =>
        cases ub with
        | none => simp [hsf]
        | some t =>
            cases ht : t.isEmpty with
            | true =>
                have ht2 : t = [] := List.isEmpty_iff.mp ht
                simp [hsf, ht, ht2]
            | false =>
                have ht2 : ¬ t = [] := by
                  intro h2; rw [h2] at ht; cases ht
                cases hts : strLt t s with
                | true => simp [hsf, ht, hts, ht2]
                | false => simp [hsf, ht, hts]
  · intro v r
    unfold powerFilterKeep isPowerInRange
    cases hf : r.power_output_from with
    | none => simp
    | some f => simp

/-- C4: the date parser maps each recognized family to its literal range —
"Inbetriebnahme bis 2001" to `[1900-01-01, 2001-12-31]` and
"Inbetriebnahme ab 25.07.2017" to an open-ended range from `2017-07-25` —
tries its recognizers in a fixed order with the first match winning (the
"bis" rule wins over the "ab MM/YYYY" rule on a string matching both, and
a match of the first recognizer on any non-empty input decides the
result), and returns `none` exactly when the input is empty or no
recognizer matches (it never throws: it is a total function into
`Option`). -/
theorem c4_ordered_recognizers_literal_ranges :
    parseCommissioningDate (L "Inbetriebnahme bis 2001") =
      some ⟨L "1900-01-01", some (L "2001-12-31")⟩ ∧
    parseCommissioningDate (L "Inbetriebnahme ab 25.07.2017") =
      some ⟨L "2017-07-25", none⟩ ∧
    (∀ s, parseCommissioningDate s = none ↔
        (s = [] ∨ ∀ o ∈ dateRecs (trimChars (toLowerChars s)), o = none)) ∧
    (∀ (s : List Char) (r : DateRange), s ≠ [] →
        recBisYear (trimChars (toLowerChars s)) = some r →
        parseCommissioningDate s = some r) ∧
    parseCommissioningDate (L "Inbetriebnahme bis 2001 ab 05/2017") =
      some ⟨L "1900-01-01", some (L "2001-12-31")⟩ ∧
    recAbMonth (trimChars (toLowerChars (L "Inbetriebnahme bis 2001 ab 05/2017"))) =
      some ⟨L "2017-05-01", none⟩ ∧
    parseCommissioningDate (L "Some random text") = none := by
  refine ⟨by decide, by decide, ?_, ?_, by decide, by decide, by decide⟩
  · intro s
    unfold parseCommissioningDate
    by_cases hs : s.isEmpty = true
    · rw [if_pos hs]
      have hnil : s = [] := List.isEmpty_iff.mp hs
      simp [hnil]
    · rw [if_neg hs]
      rw [firstSome_eq_none_iff]
      have hne : ¬ s = [] := by
        intro h2; rw [h2] at hs; exact hs rfl
      simp [hne]
  · intro s r hne hrec
    have hs : s.isEmpty = false := by
      cases s with
      | nil => exact absurd rfl hne
      | cons a as => rfl
    unfold parseCommissioningDate
    rw [hs]
    simp only [Bool.false_eq_true, if_false, dateRecs, hrec, firstSome]

/-- C5: `parsePowerRange` normalizes recognized power texts to kilowatts:
"0-0,5 MW" gives `[0, 500]` (decimal comma read as a decimal point, MW
scaled by 1000), "1 - 10 MW" gives `[1000, 10000]`, "> 100 kW" gives an
open-ended range from 100; and it returns `none` for every string with
no range or inequality marker (none of `-`, `>`, `≤`, `<`, `=` occur) or
with no `kW`/`MW` unit letter (no `w`/`W`), in particular for the bare
number "100 kW" without a marker and for free text. -/
theorem c5_power_normalization :
    parsePowerRange (L "0-0,5 MW") = some ⟨0, some 500⟩ ∧
    parsePowerRange (L "1 - 10 MW") = some ⟨1000, some 10000⟩ ∧
    parsePowerRange (L "> 100 kW") = some ⟨100, none⟩ ∧
    parsePowerRange (L "100 kW") = none ∧
    parsePowerRange (L "Some other criteria") = none ∧
    (∀ s, '-' ∉ s → '>' ∉ s → '≤' ∉ s → '<' ∉ s → '=' ∉ s →
        parsePowerRange s = none) ∧
    (∀ s, 'w' ∉ s → 'W' ∉ s → parsePowerRange s = none) := by
  refine ⟨?_, ?_, ?_, by decide, by decide, ?_, ?_⟩
  · have h1 : parsePowerRange (L "0-0,5 MW") =
        some ⟨numOfLexeme (L "0") * 1000, some (numOfLexeme (L "0,5") * 1000)⟩ := rfl
    rw [h1, numOfLexeme_d0, numOfLexeme_half]
    norm_num [PowerRange.mk.injEq]
  · have h1 : parsePowerRange (L "1 - 10 MW") =
        some ⟨numOfLexeme (L "1") * 1000, some (numOfLexeme (L "10") * 1000)⟩ := rfl
    rw [h1, numOfLexeme_d1, numOfLexeme_d10]
    norm_num [PowerRange.mk.injEq]
  · have h1 : parsePowerRange (L "> 100 kW") =
        some ⟨numOfLexeme (L "100"), none⟩ := rfl
    rw [h1, numOfLexeme_d100]
  · intro s h1 h2 h3 h4 h5
    cases hp : parsePowerRange s with
    | none => rfl
    | some r =>
        rcases (parsePowerRange_markers hp).1 with h | h | h | h | h
        · exact absurd h h1
        · exact absurd h h2
        · exact absurd h h3
        · exact absurd h h4
        · exact absurd h h5
  · intro s h1 h2
    cases hp : parsePowerRange s with
    | none => rfl
    | some r =>
        rcases (parsePowerRange_markers hp).2 with h | h
        · exact absurd h h1
        · exact absurd h h2

/-- C1: for a record whose parsed date range has a `from` but no `to`, the
date filter of `lookupTariffs` keeps it exactly when the query date is
not before `from` (string comparison) and the `getTime()` difference is
at most `365×24×60×60×1000` ms; a record with a (truthy) `to` is kept by
the plain inclusive range check with no staleness condition at all.
Concretely, for `from = 2020-01-01`: the query dates `2020-01-01` and
`2020-12-30` (`from` + 364 days) pass, `2019-12-31` (`from` − 1 day) and
`2021-01-01` (`from` + 366 days) do not. -/
theorem c1_open_ended_staleness :
    (∀ (q f : List Char) (r : EegTariffRecord) (mf mq : Int),
        r.commissioning_date_from = some f → f ≠ [] →
        r.commissioning_date_to = none →
        jsDateMs f = some mf → jsDateMs q = some mq →
        (dateFilterKeep q r = true ↔
          (strLt q f = false ∧ mq - mf ≤ oneYearInMs))) ∧
    (∀ (q f t : List Char) (r : EegTariffRecord),
        r.commissioning_date_from = some f → f ≠ [] →
        r.commissioning_date_to = some t → t ≠ [] →
        (dateFilterKeep q r = true ↔
          (strLt q f = false ∧ strLt t q = false))) ∧
    dateFilterKeep (L "2020-01-01") openRangeRecord = true ∧
    dateFilterKeep (L "2020-12-30") openRangeRecord = true ∧
    dateFilterKeep (L "2019-12-31") openRangeRecord = false ∧
    dateFilterKeep (L "2021-01-01") openRangeRecord = false := by
  refine ⟨?_, ?_, by decide, by decide, by decide, by decide⟩
  · intro q f r mf mq hf hne hto hmf hmq
    have hfe : f.isEmpty = false := by
      cases f with
      | nil => exact absurd rfl hne
      | cons a as => rfl
    unfold dateFilterKeep
    rw [hf, hto]
    simp only [Option.getD_some]
    rw [hmf, hmq]
    simp [strTruthy, hfe]
  · intro q f t r hf hne hto htne
    have hfe : f.isEmpty = false := by
      cases f with
      | nil => exact absurd rfl hne
      | cons a as => rfl
    have hte : t.isEmpty = false := by
      cases t with
      | nil => exact absurd rfl htne
      | cons a as => rfl
    unfold dateFilterKeep
    rw [hf, hto]
    simp [strTruthy, hfe, hte]

/-- C6: the records field of a successful `lookupTariffs` response is the
stable ascending sort by `power_output_from` of the filtered records:
it equals `sortRecords` of the filter pipeline's output, is pairwise
ordered with missing keys (`Infinity`) last, preserves the original
relative order of records with equal keys (the per-key sublists are
unchanged), is a permutation of the filtered input, and on the concrete
inputs `{100, 0, 40, none}` produces the order `0, 40, 100, none`. -/
theorem c6_sorted_stable_by_power :
    (∀ (params : TariffLookupParams) (l : List EegTariffRecord),
        params.energyType ≠ [] →
        (lookupTariffs params (some l)).records = sortRecords (applyFilters params l)) ∧
    (∀ l : List EegTariffRecord, List.Pairwise recLe (sortRecords l)) ∧
    (∀ (l : List EegTariffRecord) (k : Option ℚ),
        (sortRecords l).filter (fun r => decide (powerKey r = k)) =
          l.filter (fun r => decide (powerKey r = k))) ∧
    (∀ l : List EegTariffRecord, (sortRecords l).Perm l) ∧
    sortRecords [recP100, recP0, recP40, recPNone] =
      [recP0, recP40, recP100, recPNone] := by
  refine ⟨?_, sortRecords_pairwise, fun l k => sortRecords_filter_key k l,
    sortRecords_perm, by decide⟩
  intro params l h
  have he : params.energyType.isEmpty = false := by
    cases hp : params.energyType with
    | nil => exact absurd hp h
    | cons a as => rfl
  unfold lookupTariffs
  rw [he]
  simp

/-- C7: an empty `energyType` short-circuits both the service and the HTTP
handler to the exact error `"energyType parameter is required"` — for
every store outcome, including a failing store (`none`), so the store is
never consulted. -/
theorem c7_energy_type_required :
    (∀ (params : TariffLookupParams) (store : Option (List EegTariffRecord)),
        params.energyType = [] →
        lookupTariffs params store =
          { found := false, records := [], totalCount := 0,
            error := some (L "energyType parameter is required") }) ∧
    (∀ (qp : ApiQueryParams) (store : Option (List EegTariffRecord)),
        strTruthy qp.energyType = false →
        apiHandler qp store =
          { statusCode := 400, found := false, records := none, totalCount := none,
            error := some (L "energyType parameter is required") }) := by
  constructor
  · intro params store h
    unfold lookupTariffs
    rw [h]
    rfl
  · intro qp store h
    unfold apiHandler
    rw [h]
    rfl

/-- C8: a row with non-empty designation and energy-source cells is always
ingested, even when both free-text parsers return `null`: the record is
emitted with all four range fields absent, a query on its energy source
alone returns it, and any query filtering on the failed date or power
dimension drops it (returning an empty, `found = false` result). -/
theorem c8_unparsable_ranges_nonfatal :
    ∀ row : SheetRow,
      strTruthy (trimOpt row.c0) = true →
      strTruthy (trimOpt row.c1) = true →
      parseCommissioningDate ((trimOpt row.c2).getD []) = none →
      parsePowerRange ((trimOpt row.c3).getD []) = none →
      processRow row = some (buildRecord row) ∧
      (buildRecord row).commissioning_date_from = none ∧
      (buildRecord row).commissioning_date_to = none ∧
      (buildRecord row).power_output_from = none ∧
      (buildRecord row).power_output_to = none ∧
      lookupTariffs ⟨(buildRecord row).pk, none, none, none, none⟩
          (some [buildRecord row]) =
        { found := true, records := [buildRecord row], totalCount := 1,
          error := none } ∧
      (∀ d : List Char, d ≠ [] →
        lookupTariffs ⟨(buildRecord row).pk, some d, none, none, none⟩
            (some [buildRecord row]) =
          { found := false, records := [], totalCount := 0, error := none }) ∧
      (∀ p : ℚ,
        lookupTariffs ⟨(buildRecord row).pk, none, some p, none, none⟩
            (some [buildRecord row]) =
          { found := false, records := [], totalCount := 0, error := none }) := by
  intro row h0 h1 h2 h3
  have hbez : strTruthy (some (trimChars (row.c0.getD []))) = true := by
    cases hc0 : row.c0 with
    | none => rw [trimOpt, hc0] at h0; simp [strTruthy] at h0
    | some c0 =>
        rw [trimOpt, hc0] at h0
        simpa [Option.map] using h0
  have hfrom : (buildRecord row).commissioning_date_from = none := by
    simp [buildRecord, h2]
  have hpfrom : (buildRecord row).power_output_from = none := by
    simp [buildRecord, h3]
  have hpk : (buildRecord row).pk.isEmpty = false := by
    cases hc1 : row.c1 with
    | none => rw [trimOpt, hc1] at h1; simp [strTruthy] at h1
    | some c1 =>
        rw [trimOpt, hc1] at h1
        simp only [Option.map] at h1
        simp only [buildRecord, trimOpt, hc1, Option.map, Option.getD_some]
        simp only [strTruthy] at h1
        simpa using h1
  refine ⟨?_, hfrom, by simp [buildRecord, h2], hpfrom, by simp [buildRecord, h3],
    ?_, ?_, ?_⟩
  · unfold processRow
    rw [h0, h1, hbez]
    rfl
  · unfold lookupTariffs
    rw [hpk]
    simp [applyFilters, sortRecords, insertSorted]
  · intro d hd
    have hde : d.isEmpty = false := by
      cases d with
      | nil => exact absurd rfl hd
      | cons a as => rfl
    unfold lookupTariffs
    rw [hpk]
    simp [applyFilters, hde, dateFilterKeep, hfrom, strTruthy, sortRecords]
  · intro p
    unfold lookupTariffs
    rw [hpk]
    simp [applyFilters, powerFilterKeep, hpfrom, sortRecords]

/-- C9: a failed resume callback — the `fetch` throwing or answering with a
non-ok status — makes `resumeEpilotExecution` throw, and the webhook
handler's invocation then fails with a 500 / `success: false` response;
a 200 / `success: true` response is only ever produced when the callback
completed. -/
theorem c9_callback_failure_propagates :
    (∀ e : JsError,
        resumeEpilotExecution (Except.error e) = Except.error e ∧
        webhookHandler true true (Except.ok ()) (Except.error e) =
          { statusCode := 500, success := false }) ∧
    (∀ resp : FetchResponse, resp.ok = false →
        resumeEpilotExecution (Except.ok resp) =
          Except.error (JsError.callbackFailed resp.status) ∧
        webhookHandler true true (Except.ok ()) (Except.ok resp) =
          { statusCode := 500, success := false }) ∧
    (∀ (hasBody hasToken : Bool) (patch : Except JsError Unit)
        (fetchR : Except JsError FetchResponse),
        webhookHandler hasBody hasToken patch fetchR =
          { statusCode := 200, success := true } →
        resumeEpilotExecution fetchR = Except.ok ()) := by
  refine ⟨?_, ?_, ?_⟩
  · intro e
    exact ⟨rfl, rfl⟩
  · intro resp h
    constructor
    · simp [resumeEpilotExecution, h]
    · simp [webhookHandler, resumeEpilotExecution, h]
  · intro hasBody hasToken patch fetchR h
    unfold webhookHandler at h
    cases hasBody with
    | false => cases h
    | true =>
        cases hasToken with
        | false => cases h
        | true =>
            simp only [Bool.not_true, Bool.false_eq_true, if_false] at h
            cases patch with
            | error e => cases h
            | ok u =>
                cases hr : resumeEpilotExecution fetchR with
                | error e => rw [hr] at h; cases h
                | ok u2 => cases u2; rfl

/-- C10: each of the four rate fields of an ingested record is absent or a
nonzero number: `parseFloat(cell) || undefined` turns both a `0` and a
non-numeric (`NaN`) rate cell into an absent field, so no emitted record
carries a rate equal to 0. -/
theorem c10_rates_absent_or_nonzero :
    (∀ (row : SheetRow) (r : EegTariffRecord), processRow row = some r →
        nonzeroRate r.einspeiseverguetung ∧ nonzeroRate r.anzulegender_wert ∧
        nonzeroRate r.ausfallverguetung ∧ nonzeroRate r.mieterstromzuschlag) ∧
    parseRate (some 0) = none ∧ parseRate none = none ∧
    (∀ v : ℚ, v ≠ 0 → parseRate (some v) = some v) := by
  have hnz : ∀ c : Option ℚ, nonzeroRate (parseRate c) := by
    intro c
    cases c with
    | none => exact Or.inl rfl
    | some v =>
        by_cases hv : v = 0
        · subst hv
          exact Or.inl (by simp [parseRate])
        · exact Or.inr ⟨v, by simp [parseRate, hv], hv⟩
  refine ⟨?_, by simp [parseRate], rfl, ?_⟩
  · intro row r h
    unfold processRow at h
    split at h
    · cases h
    · split at h
      · cases h
      · cases h
        exact ⟨hnz row.c5, hnz row.c6, hnz row.c7, hnz row.c8⟩
  · intro v hv
    simp [parseRate, hv]

/-! ## Witnesses -/

/-- Witness for C1: the hypotheses of the open-ended staleness rule hold at
the concrete record with `from = 2020-01-01` and the query date
`2020-12-30`, and the theorem instantiates there. -/
theorem c1_open_ended_staleness_witness :
    openRangeRecord.commissioning_date_from = some (L "2020-01-01") ∧
    (L "2020-01-01") ≠ ([] : List Char) ∧
    openRangeRecord.commissioning_date_to = none ∧
    jsDateMs (L "2020-01-01") = some 1577836800000 ∧
    jsDateMs (L "2020-12-30") = some 1609286400000 ∧
    (dateFilterKeep (L "2020-12-30") openRangeRecord = true ↔
      (strLt (L "2020-12-30") (L "2020-01-01") = false ∧
        (1609286400000 - 1577836800000 : Int) ≤ oneYearInMs)) :=
  ⟨rfl, by decide, rfl, by decide, by decide,
    c1_open_ended_staleness.1 (L "2020-12-30") (L "2020-01-01") openRangeRecord
      1577836800000 1609286400000 rfl (by decide) rfl (by decide) (by decide)⟩

/-- Witness for the amended C2: the endpoint behavior instantiates at the
closed range `[10, 40]`, whose upper bound is truthy. -/
theorem c2_membership_amended_witness :
    (10 : ℚ) ≤ 40 ∧ (40 : ℚ) ≠ 0 ∧
    (isPowerInRange 10 ⟨10, some 40⟩ = true ∧
     isPowerInRange 40 ⟨10, some 40⟩ = true ∧
     isPowerInRange (10 - 1) ⟨10, some 40⟩ = false ∧
     isPowerInRange (40 + 1) ⟨10, some 40⟩ = false) :=
  ⟨by decide, by decide,
    c2_membership_amended.2.1 10 40 (by decide) (by decide)⟩

/-- Witness for C4: the first-recognizer-wins conjunct instantiates at
"Inbetriebnahme bis 2001". -/
theorem c4_ordered_recognizers_witness :
    (L "Inbetriebnahme bis 2001") ≠ ([] : List Char) ∧
    recBisYear (trimChars (toLowerChars (L "Inbetriebnahme bis 2001"))) =
      some ⟨L "1900-01-01", some (L "2001-12-31")⟩ ∧
    parseCommissioningDate (L "Inbetriebnahme bis 2001") =
      some ⟨L "1900-01-01", some (L "2001-12-31")⟩ :=
  ⟨by decide, by decide,
    c4_ordered_recognizers_literal_ranges.2.2.2.1 (L "Inbetriebnahme bis 2001")
      ⟨L "1900-01-01", some (L "2001-12-31")⟩ (by decide) (by decide)⟩

/-- Witness for C5: the no-marker conjunct instantiates at the free text
"Solar", which contains no range or inequality marker. -/
theorem c5_power_normalization_witness :
    '-' ∉ L "Solar" ∧ '>' ∉ L "Solar" ∧ '≤' ∉ L "Solar" ∧ '<' ∉ L "Solar" ∧
    '=' ∉ L "Solar" ∧ parsePowerRange (L "Solar") = none :=
  ⟨by decide, by decide, by decide, by decide, by decide,
    c5_power_normalization.2.2.2.2.2.1 (L "Solar") (by decide) (by decide)
      (by decide) (by decide) (by decide)⟩

/-- Witness for C6: the records-field conjunct instantiates at a non-empty
energy type and a concrete two-record store. -/
theorem c6_sorted_stable_witness :
    (⟨L "Solar", none, none, none, none⟩ : TariffLookupParams).energyType ≠ [] ∧
    (lookupTariffs ⟨L "Solar", none, none, none, none⟩
        (some [recP100, recP0])).records =
      sortRecords (applyFilters ⟨L "Solar", none, none, none, none⟩
        [recP100, recP0]) :=
  ⟨by decide,
    c6_sorted_stable_by_power.1 ⟨L "Solar", none, none, none, none⟩
      [recP100, recP0] (by decide)⟩

/-- Witness for C7: the validation error fires with an empty energy type
even when the store round trip would fail (`none`). -/
theorem c7_energy_type_required_witness :
    (⟨[], none, none, none, none⟩ : TariffLookupParams).energyType = [] ∧
    lookupTariffs ⟨[], none, none, none, none⟩ none =
      { found := false, records := [], totalCount := 0,
        error := some (L "energyType parameter is required") } :=
  ⟨rfl, c7_energy_type_required.1 ⟨[], none, none, none, none⟩ none rfl⟩

/-- Witness for C8: `sampleRow` has non-empty designation and energy-source
cells and both parsers fail on its free texts, and the theorem
instantiates there. -/
theorem c8_unparsable_ranges_witness :
    strTruthy (trimOpt sampleRow.c0) = true ∧
    strTruthy (trimOpt sampleRow.c1) = true ∧
    parseCommissioningDate ((trimOpt sampleRow.c2).getD []) = none ∧
    parsePowerRange ((trimOpt sampleRow.c3).getD []) = none ∧
    processRow sampleRow = some (buildRecord sampleRow) :=
  ⟨by decide, by decide, by decide, by decide,
    (c8_unparsable_ranges_nonfatal sampleRow (by decide) (by decide) (by decide)
      (by decide)).1⟩

/-- Witness for C9: a 502 non-ok callback response makes the handler fail. -/
theorem c9_callback_failure_witness :
    ({ ok := false, status := 502 } : FetchResponse).ok = false ∧
    resumeEpilotExecution (Except.ok ⟨false, 502⟩) =
      Except.error (JsError.callbackFailed 502) ∧
    webhookHandler true true (Except.ok ()) (Except.ok ⟨false, 502⟩) =
      { statusCode := 500, success := false } :=
  ⟨rfl, (c9_callback_failure_propagates.2.1 ⟨false, 502⟩ rfl).1,
    (c9_callback_failure_propagates.2.1 ⟨false, 502⟩ rfl).2⟩

/-- Witness for C10: the record ingested from `sampleRow` has its rate
fields absent or nonzero. -/
theorem c10_rates_witness :
    processRow sampleRow = some (buildRecord sampleRow) ∧
    nonzeroRate (buildRecord sampleRow).einspeiseverguetung :=
  ⟨by decide,
    (c10_rates_absent_or_nonzero.1 sampleRow (buildRecord sampleRow) (by decide)).1⟩

end Eeg







